import Mathlib

/-!
Shallow embedding of the hot-reloadable MQTT dispatch bridge
(`mqtt_database_bridge.py`, class `MQTTDatabaseBridge`).

Python values that the bridge inspects are modelled as explicit data:
type annotations become a `PyType` tree matching what
`typing.get_origin` / `typing.get_args` observe, modules become records
of the attributes the validator reads, and the filesystem, handler
cache and subscription set are passed as explicit state.  Exceptions
that the Python code lets escape are modelled with `Except` / an
`Option PyErr` component; exceptions the code catches never surface.
-/

/-- A formal parameter of a Python function as seen by
`inspect.signature`: its name and whether it carries a default. -/
structure Param where
  name : String
  hasDefault : Bool
deriving DecidableEq, Repr

/-- What `typing.get_origin` can return for the annotations the
validator distinguishes: `typing.Union`, the classes `Ok` / `Err`,
some other generic origin, or `None` (plain classes / empty). -/
inductive TyOrigin
  | unionO
  | okO
  | errO
  | otherO (name : String)
  | noneO
deriving DecidableEq, Repr

/-- A Python type annotation, at the granularity the validator reads it:
`Ok[t]` and `Err[t]` are single-argument generic aliases (class `Ok` /
`Err` take exactly one type parameter), other generic aliases keep a
name and argument list, unions keep their variant list, and `bool`,
`str` and other plain names are leaves. -/
inductive PyType
  | boolTy
  | strTy
  | plain (name : String)
  | okApp (arg : PyType)
  | errApp (arg : PyType)
  | genApp (name : String) (args : List PyType)
  | unionOf (args : List PyType)

/-- `typing.get_origin` on a `PyType`. -/
def getOrigin : PyType → TyOrigin
  | .boolTy => .noneO
  | .strTy => .noneO
  | .plain _ => .noneO
  | .okApp _ => .okO
  | .errApp _ => .errO
  | .genApp n _ => .otherO n
  | .unionOf _ => .unionO

/-- `typing.get_args` on a `PyType`. -/
def getArgs : PyType → List PyType
  | .okApp t => [t]
  | .errApp t => [t]
  | .genApp _ l => l
  | .unionOf l => l
  | _ => []

/-- `typing.get_args(t)[0]`; the default is never reached where the
code uses it, because it is only read after `get_origin` returned the
class `Ok` or `Err`, whose aliases carry exactly one argument. -/
def firstArg (t : PyType) : PyType :=
  (getArgs t).headD (PyType.plain "")

/-- A value a handler can hand back to the dispatcher: an `Ok` value, an
`Err` value, or some object that has no `is_ok` method at all. -/
inductive PyValue
  | okVal (b : Bool)
  | errVal (s : String)
  | nonResult (d : String)
deriving DecidableEq, Repr

/-- Runtime behaviour of a handler when invoked: it raises, or it
returns a value. -/
inductive CbBehavior
  | raises (msg : String)
  | returns (v : PyValue)
deriving DecidableEq, Repr

/-- A Python function as the bridge observes it: its parameter list,
its declared return annotation, and its runtime behaviour. -/
structure FuncDef where
  params : List Param
  ret : PyType
  behavior : CbBehavior

/-- A module attribute named `callback`: either not a function (with
its Python truthiness recorded) or a function. -/
inductive PyAttr
  | notFunction (truthy : Bool)
  | function (f : FuncDef)

/-- A loaded handler module, reduced to the single attribute the
bridge reads: `callback`, when present. -/
structure PyModule where
  callback : Option PyAttr

/-- A JSON scalar inside a topic configuration entry. -/
inductive CfgVal
  | str (s : String)
  | nat (n : Nat)
deriving DecidableEq, Repr

/-- Observable actions of one bridge operation: dynamic module loads,
transport subscribe/unsubscribe calls, and log lines. -/
inductive Effect
  | loadModule (path : String)
  | subscribe (topic : String) (qos : CfgVal)
  | unsubscribe (topic : String)
  | logInfo (s : String)
  | logWarn (s : String)
deriving DecidableEq, Repr

/-- Python's `t is bool` identity test on an annotation. -/
def isBoolTy : PyType → Bool
  | .boolTy => true
  | _ => false

/-- Python's `t is str` identity test on an annotation. -/
def isStrTy : PyType → Bool
  | .strTy => true
  | _ => false

/-- The parameter names `_validate_callback_signature` expects. -/
def expectedParams : List String := ["client", "userdata", "msg"]

/-- `MQTTDatabaseBridge._validate_callback_signature`: checks, in the
source's order, that the module has a `callback` attribute, that it is
a function, that its parameter names are exactly
`client, userdata, msg`, that no parameter has a default, that the
return annotation's origin is `typing.Union` with exactly two
arguments whose origins are the classes `Ok` and `Err`, and that their
generic payloads are `bool` and `str`.  Returns the boolean verdict
together with the warning log lines emitted on the way. -/
def validateCallbackSignature (m : PyModule) : Bool × List Effect :=
  match m.callback with
  | none => (false, [.logWarn "module has no callback attribute"])
  | some (.notFunction _) => (false, [.logWarn "callback is not a function"])
  | some (.function f) =>
    if f.params.map Param.name ≠ expectedParams then
      (false, [.logWarn "parameter names mismatch"])
    else
      match f.params.find? (fun p => p.hasDefault) with
      | some p => (false, [.logWarn ("parameter has a default value: " ++ p.name)])
      | none =>
        if getOrigin f.ret ≠ TyOrigin.unionO then
          (false, [.logWarn "return annotation is not a Union"])
        else
          match getArgs f.ret with
          | [s, e] =>
            if getOrigin s ≠ TyOrigin.okO ∨ getOrigin e ≠ TyOrigin.errO then
              (false, [.logWarn "Union variants are not Ok and Err"])
            else
              if !(isBoolTy (firstArg s)) || !(isStrTy (firstArg e)) then
                (false, [.logWarn "generic payloads are not bool and str"])
              else
                (true, [])
          | _ => (false, [.logWarn "Union does not have exactly 2 variants"])

/-- The shape contract of the spec, stated independently of the
validator: the module exposes a function `callback` whose parameters
are exactly `client, userdata, msg` in order, none with a default,
and whose declared return type is the union `Ok[bool] | Err[str]`. -/
def AcceptShape (m : PyModule) : Prop :=
  ∃ f : FuncDef, m.callback = some (PyAttr.function f) ∧
    f.params.map Param.name = expectedParams ∧
    (∀ p ∈ f.params, p.hasDefault = false) ∧
    f.ret = PyType.unionOf [PyType.okApp PyType.boolTy, PyType.errApp PyType.strTy]

/-- Uncaught Python exceptions that the bridge's own code can let
escape: `FileNotFoundError` from `os.path.getmtime`, `KeyError` /
`TypeError` from configuration access, JSON decode errors from
`json.load`, exceptions raised by the transport's subscribe and
unsubscribe calls, and `AttributeError` from calling `is_ok` on a
non-`Result` return value. -/
inductive PyErr
  | fileNotFound (path : String)
  | keyError (k : String)
  | typeError (s : String)
  | jsonError (s : String)
  | transportError (topic : String)
  | attributeError (s : String)
deriving DecidableEq, Repr

/-- A callable the registry can hand to the dispatcher: the process-wide
default `callback` function, a user function loaded from a handler
module, or the non-function object a module bound to `callback` (with
its Python truthiness). -/
inductive Callable
  | defaultCallback
  | userCallback (f : FuncDef)
  | nonCallable (truthy : Bool)

/-- `module.callback` as a value stored into the cache. -/
def attrToCallable : PyAttr → Callable
  | .function f => .userCallback f
  | .notFunction b => .nonCallable b

/-- Python truthiness of a callable (`if not callback`): functions are
always truthy; a cached non-function carries its own truthiness. -/
def pyTruthy : Callable → Bool
  | .defaultCallback => true
  | .userCallback _ => true
  | .nonCallable b => b

/-- One entry of `self.callback_cache`: the cached callable and the
file modification time recorded at load. -/
structure CacheEntry where
  func : Callable
  mtime : Nat

/-- `self.callback_cache`, a dict keyed by handler path. -/
abbrev Cache : Type := List (String × CacheEntry)

/-- Dict assignment `cache[path] = entry`: replace the binding if the
key is present, otherwise append it. -/
def insertCache : Cache → String → CacheEntry → Cache
  | [], p, e => [(p, e)]
  | (q, e0) :: rest, p, e =>
    if q == p then (p, e) :: rest else (q, e0) :: insertCache rest p e

/-- Result of executing a handler module file
(`spec.loader.exec_module`): it raises, or it yields a module. -/
inductive ExecOutcome
  | raises (msg : String)
  | loads (m : PyModule)

/-- What the filesystem holds at a path: the file's modification time
and what executing it would produce. -/
structure FileInfo where
  mtime : Nat
  exec : ExecOutcome

/-- The filesystem: `none` means the file is missing. -/
abbrev FS : Type := String → Option FileInfo

/-- The body of `_load_callback`'s reload branch (the code from the
dynamic import to the cache update, all inside `try ... except`):
execute the module, validate its signature, and on success replace the
cache entry and return it via the dict lookup the source performs; on
any caught failure return the default callback with the cache left
unchanged.  The `none` fallback below is unreachable because a module
that passed validation has a `callback` attribute; Python would raise
`AttributeError` inside the `try` and likewise fall back to the
default. -/
def loadFresh (cache : Cache) (path : String) (fi : FileInfo) :
    Except PyErr (Callable × Cache × List Effect) :=
  match fi.exec with
  | .raises msg =>
    .ok (.defaultCallback, cache,
      [.loadModule path,
       .logWarn ("import of callback failed " ++ path ++ ": " ++ msg),
       .logWarn ("using default callback instead of " ++ path)])
  | .loads m =>
    let v := validateCallbackSignature m
    if v.fst = false then
      .ok (.defaultCallback, cache,
        [Effect.loadModule path] ++ v.snd ++
        [.logWarn ("callback signature invalid " ++ path),
         .logWarn ("using default callback instead of " ++ path)])
    else
      match m.callback with
      | some a =>
        let cache2 := insertCache cache path ⟨attrToCallable a, fi.mtime⟩
        .ok (((List.lookup path cache2).getD ⟨Callable.defaultCallback, 0⟩).func,
          cache2,
          [Effect.loadModule path] ++ v.snd ++
          [.logInfo ("loaded or updated callback " ++ path)])
      | none =>
        .ok (.defaultCallback, cache,
          [.loadModule path,
           .logWarn ("import of callback failed " ++ path),
           .logWarn ("using default callback instead of " ++ path)])

/-- `MQTTDatabaseBridge._load_callback`: stat the file
(`os.path.getmtime` raises `FileNotFoundError` when it is missing —
this call sits outside the `try`), then either serve the cache entry
whose recorded modification time matches, or reload through
`loadFresh`. -/
def loadCallback (fs : FS) (cache : Cache) (path : String) :
    Except PyErr (Callable × Cache × List Effect) :=
  match fs path with
  | none => .error (.fileNotFound path)
  | some fi =>
    match List.lookup path cache with
    | none => loadFresh cache path fi
    | some entry =>
      if fi.mtime ≠ entry.mtime then loadFresh cache path fi
      else .ok (entry.func, cache, [])

/-- Two consecutive resolutions of the same path, threading the cache
of the first call into the second; returns both callables, the final
cache, and the concatenated effects. -/
def resolveTwice (fs : FS) (cache : Cache) (path : String) :
    Except PyErr (Callable × Callable × Cache × List Effect) :=
  match loadCallback fs cache path with
  | .error e => .error e
  | .ok (f1, c1, e1) =>
    match loadCallback fs c1 path with
    | .error e => .error e
    | .ok (f2, c2, e2) => .ok (f1, f2, c2, e1 ++ e2)

/-- One topic's configuration entry: the JSON object under
`config["topics"][topic]`, as a dict. -/
abbrev TopicCfg : Type := List (String × CfgVal)

/-- The loaded configuration, reduced to the field the dispatch core
reads: `topics`.  A JSON file without a `topics` key behaves exactly
like an empty mapping (`config.get("topics", {})`), so it is modelled
as `[]`; `broker`, `port` and `interval` only feed the transport
connection and the sleep call, which are outside this model. -/
structure Config where
  topics : List (String × TopicCfg)

/-- `set(self.config.get("topics", {}).keys())`: the key set of the
topics mapping (a dict has unique keys, hence the deduplication). -/
def topicKeys (cfg : Config) : List String :=
  (cfg.topics.map Prod.fst).dedup

/-- `topic_config.get("qos", 0)`. -/
def qosOf (tc : TopicCfg) : CfgVal :=
  (List.lookup "qos" tc).getD (CfgVal.nat 0)

/-- An inbound MQTT message as the dispatcher reads it. -/
structure Msg where
  topic : String
  payload : String

/-- Invoking a callable (`callback(client, userdata, msg)` inside the
dispatcher's `try`): the default callback logs a warning and returns
`Ok(True)`; a user function follows its recorded behaviour; calling a
non-function raises `TypeError`, which the dispatcher's `except`
catches like any handler fault. -/
def callCallback : Callable → CbBehavior × List Effect
  | .defaultCallback =>
    (.returns (.okVal true), [.logWarn "default callback received message"])
  | .userCallback f => (f.behavior, [])
  | .nonCallable _ => (.raises "object is not callable", [])

/-- `MQTTDatabaseBridge._on_message`: look up the topic's entry
(`config.get("topics", {}).get(msg.topic)`), treat a missing or falsy
entry as unconfigured, extract `callback_path` (a `KeyError` or a
non-string path escapes), resolve the callable, invoke it inside the
failure boundary, and log the outcome; `result.is_ok()` on a
non-`Result` return raises `AttributeError` outside the `try`.
Returns the cache as mutated so far, the effects, and the uncaught
exception if one escapes. -/
def onMessage (fs : FS) (cfg : Config) (cache : Cache) (m : Msg) :
    Cache × List Effect × Option PyErr :=
  match List.lookup m.topic cfg.topics with
  | none => (cache, [.logWarn ("no callback configured for " ++ m.topic)], none)
  | some tc =>
    if tc.isEmpty then
      (cache, [.logWarn ("no callback configured for " ++ m.topic)], none)
    else
      match List.lookup "callback_path" tc with
      | none => (cache, [], some (.keyError "callback_path"))
      | some (.nat _) => (cache, [], some (.typeError "callback_path is not a string path"))
      | some (.str path) =>
        match loadCallback fs cache path with
        | .error e => (cache, [], some e)
        | .ok (cb, cache2, e1) =>
          if pyTruthy cb = false then
            (cache2, e1 ++ [.logWarn ("loading " ++ path ++ " failed")], none)
          else
            let c := callCallback cb
            match c.fst with
            | .raises msg =>
              (cache2, e1 ++ c.snd ++ [.logWarn ("callback " ++ path ++ " raised: " ++ msg)], none)
            | .returns (.okVal b) =>
              (cache2, e1 ++ c.snd ++
                [.logInfo ("callback " ++ path ++ " succeeded"),
                 .logInfo ("callback " ++ path ++ " result value " ++ toString b),
                 .logInfo ("callback " ++ path ++ " elapsed time logged")], none)
            | .returns (.errVal s) =>
              (cache2, e1 ++ c.snd ++
                [.logWarn ("callback " ++ path ++ " failed: Result Err " ++ s),
                 .logInfo ("callback " ++ path ++ " elapsed time logged")], none)
            | .returns (.nonResult _) =>
              (cache2, e1 ++ c.snd, some (.attributeError "result has no attribute is_ok"))

/-- The transport (`self.client`): which subscribe and unsubscribe
calls raise. -/
structure Transport where
  subFail : String → Bool
  unsubFail : String → Bool

/-- The first loop of `_sync_subscriptions`: for each topic of the
precomputed diff, call `client.unsubscribe`, then remove the topic from
the subscription set and log.  A raising transport call aborts the
loop with the set and effects as mutated so far. -/
def removeLoop (tr : Transport) (pending : List String) (subs : List String) :
    List String × List Effect × Option PyErr :=
  match pending with
  | [] => (subs, [], none)
  | t :: ts =>
    if tr.unsubFail t then (subs, [], some (.transportError t))
    else
      let r := removeLoop tr ts (subs.erase t)
      (r.1, Effect.unsubscribe t :: Effect.logInfo ("unsubscribed " ++ t) :: r.2.1, r.2.2)

/-- The second loop of `_sync_subscriptions`: for each topic of the
diff, read its entry (`self.config["topics"][topic]`, a `KeyError`
when absent), take `qos` with default `0`, call `client.subscribe`,
then add the topic to the subscription set and log. -/
def addLoop (cfg : Config) (tr : Transport) (pending : List String) (subs : List String) :
    List String × List Effect × Option PyErr :=
  match pending with
  | [] => (subs, [], none)
  | t :: ts =>
    match List.lookup t cfg.topics with
    | none => (subs, [], some (.keyError t))
    | some tc =>
      if tr.subFail t then (subs, [], some (.transportError t))
      else
        let r := addLoop cfg tr ts (subs ++ [t])
        (r.1, Effect.subscribe t (qosOf tc) :: Effect.logInfo ("subscribed " ++ t) :: r.2.1, r.2.2)

/-- `MQTTDatabaseBridge._sync_subscriptions`: compute the removal diff
from the current subscription set, run the unsubscribe loop, and — when
it did not raise — compute the addition diff against the now-shrunk
set and run the subscribe loop.  An exception from either loop escapes
with the state as mutated so far. -/
def syncSubscriptions (cfg : Config) (tr : Transport) (subs : List String) :
    List String × List Effect × Option PyErr :=
  let current := topicKeys cfg
  let toRemove := subs.filter (fun t => decide (t ∉ current))
  let r := removeLoop tr toRemove subs
  match r.2.2 with
  | some e => (r.1, r.2.1, some e)
  | none =>
    let toAdd := current.filter (fun t => decide (t ∉ r.1))
    let a := addLoop cfg tr toAdd r.1
    (a.1, r.2.1 ++ a.2.1, a.2.2)

/-- The configuration file on disk: missing, or present with a
modification time and a load result. -/
inductive LoadResult
  | valid (c : Config)
  | malformed (msg : String)

/-- State of the configuration file at one poll of the reload loop. -/
inductive ConfigFile
  | missing
  | present (mtime : Nat) (content : LoadResult)

/-- The mutable state of the bridge that `run` touches. -/
structure RunState where
  configPath : String
  config : Config
  lastMtime : Nat
  subscribed : List String

/-- One iteration of `MQTTDatabaseBridge.run`'s `while True` body, up
to the sleep: stat the config file (`os.path.getmtime` raises when it
is missing), reload it when its modification time grew (`json.load`
raises on malformed content — there is no `try` around either call),
then synchronize subscriptions.  Returns the state as mutated so far,
the effects, and the exception escaping the iteration, if any. -/
def runStep (tr : Transport) (cf : ConfigFile) (st : RunState) :
    RunState × List Effect × Option PyErr :=
  match cf with
  | .missing => (st, [], some (.fileNotFound st.configPath))
  | .present mt content =>
    if mt > st.lastMtime then
      match content with
      | .malformed msg =>
        (st, [.logInfo "config file changed, reloading"], some (.jsonError msg))
      | .valid c =>
        let st1 : RunState :=
          { st with config := c, lastMtime := mt }
        let s := syncSubscriptions st1.config tr st1.subscribed
        ({ st1 with subscribed := s.1 },
         Effect.logInfo "config file changed, reloading" :: s.2.1, s.2.2)
    else
      let s := syncSubscriptions st.config tr st.subscribed
      ({ st with subscribed := s.1 }, s.2.1, s.2.2)

/-! Concrete instances used by the witnesses and counterexamples. -/

/-- A filesystem with no files. -/
def fsEmpty : FS := fun _ => none

/-- A configuration routing topic `t` to handler file `h.py`. -/
def cfgT : Config := ⟨[("t", [("callback_path", CfgVal.str "h.py")])]⟩

/-- A message on topic `t`. -/
def msgT : Msg := ⟨"t", "payload"⟩

/-- A transport whose calls always succeed. -/
def trNoFail : Transport := ⟨fun _ => false, fun _ => false⟩

/-- A transport whose unsubscribe call raises exactly on topic `a`. -/
def trUnsubFailA : Transport := ⟨fun _ => false, fun t => t == "a"⟩

/-- A configuration whose only topic is `b`. -/
def cfgOnlyB : Config := ⟨[("b", [("callback_path", CfgVal.str "b.py")])]⟩

/-- A run state currently routing `cfgT`, subscribed to `t`, with the
config file last seen at modification time 5. -/
def stExample : RunState := ⟨"config.json", cfgT, 5, ["t"]⟩

/-- A handler function of the exact shape the validator accepts. -/
def fdGood : FuncDef :=
  ⟨[⟨"client", false⟩, ⟨"userdata", false⟩, ⟨"msg", false⟩],
   PyType.unionOf [PyType.okApp PyType.boolTy, PyType.errApp PyType.strTy],
   CbBehavior.returns (PyValue.okVal true)⟩

/-- A module exposing `fdGood` as its `callback`. -/
def mGood : PyModule := ⟨some (PyAttr.function fdGood)⟩

/-- The file `h.py` with modification time 7, loading `mGood`. -/
def fiGood : FileInfo := ⟨7, ExecOutcome.loads mGood⟩

/-- A filesystem holding exactly `h.py`. -/
def fsH : FS := fun p => if p == "h.py" then some fiGood else none

/-- A cache already holding `h.py`'s callback at time 7. -/
def cacheH : Cache := [("h.py", ⟨Callable.userCallback fdGood, 7⟩)]

/-- A module with no `callback` attribute (fails validation). -/
def mNoCb : PyModule := ⟨none⟩

/-- The file `bad.py` with modification time 3, loading `mNoCb`. -/
def fiBad : FileInfo := ⟨3, ExecOutcome.loads mNoCb⟩

/-- A filesystem holding exactly `bad.py`. -/
def fsBad : FS := fun p => if p == "bad.py" then some fiBad else none

/-- A configuration whose only topic is `new`, at QoS 1. -/
def cfgNew : Config :=
  ⟨[("new", [("callback_path", CfgVal.str "n.py"), ("qos", CfgVal.nat 1)])]⟩

/-- A configuration where topic `t` is present but maps to the empty
object (a falsy value). -/
def cfgFalsy : Config := ⟨[("t", [])]⟩

/-- A configuration with no topics at all. -/
def cfgNone : Config := ⟨[]⟩

/-! Helper lemmas. -/

/-- Looking up a key right after writing it yields the written entry. -/
theorem lookup_insertCache (c : Cache) (p : String) (e : CacheEntry) :
    List.lookup p (insertCache c p e) = some e := by
  induction c with
  | nil => simp [insertCache, List.lookup]
  | cons kv rest ih =>
    obtain ⟨q, e0⟩ := kv
    by_cases h : q = p
    · simp [insertCache, h, List.lookup]
    · have hb : (q == p) = false := by
        simp only [beq_eq_false_iff_ne, ne_eq]
        exact h
      have hb2 : (p == q) = false := by
        simp only [beq_eq_false_iff_ne, ne_eq]
        exact fun hh => h hh.symm
      simp [insertCache, hb, hb2, List.lookup, ih]

/-- A filter over a list none of whose elements satisfy the predicate
is empty. -/
theorem filterNilOf (p : String → Bool) (l : List String)
    (h : ∀ a ∈ l, p a = false) : l.filter p = [] := by
  induction l with
  | nil => rfl
  | cons a as ih =>
    have ha := h a (List.mem_cons_self a as)
    simp [List.filter, ha]
    intro b hb
    exact h b (List.mem_cons_of_mem a hb)

/-- A key appearing among an association list's keys has a binding. -/
theorem lookupOfMemKeys (l : List (String × TopicCfg)) (a : String)
    (h : a ∈ l.map Prod.fst) : ∃ b, List.lookup a l = some b := by
  induction l with
  | nil => simp at h
  | cons kv rest ih =>
    obtain ⟨k, v⟩ := kv
    by_cases hk : a = k
    · exact ⟨v, by simp [List.lookup, hk]⟩
    · have hb : (a == k) = false := by simp [hk]
      have : a ∈ rest.map Prod.fst := by
        simp at h
        rcases h with h | h
        · exact absurd h hk
        · simpa using h
      obtain ⟨b, hb2⟩ := ih this
      exact ⟨b, by simp [List.lookup, hb, hb2]⟩

/-- When no pending unsubscribe call fails, the unsubscribe loop
completes without an exception. -/
theorem removeLoop_err_none_of_noFail (tr : Transport) (pending subs : List String)
    (h : ∀ t ∈ pending, tr.unsubFail t = false) :
    (removeLoop tr pending subs).2.2 = none := by
  induction pending generalizing subs with
  | nil => rfl
  | cons t ts ih =>
    have ht := h t (List.mem_cons_self t ts)
    simp [removeLoop, ht]
    exact ih (subs.erase t) fun b hb => h b (List.mem_cons_of_mem t hb)

/-- When the unsubscribe loop completes without an exception, the
resulting set is the input set with every pending topic erased. -/
theorem removeLoop_fst_of_none (tr : Transport) (pending subs : List String)
    (h : (removeLoop tr pending subs).2.2 = none) :
    (removeLoop tr pending subs).1 = pending.foldl List.erase subs := by
  induction pending generalizing subs with
  | nil => rfl
  | cons t ts ih =>
    by_cases hf : tr.unsubFail t
    · simp [removeLoop, hf] at h
    · simp [removeLoop, hf] at h ⊢
      exact ih (subs.erase t) h

/-- A pending topic whose unsubscribe call raises makes the
unsubscribe loop abort with a transport error. -/
theorem removeLoop_err_of_fail (tr : Transport) (pending subs : List String)
    (t : String) (ht : t ∈ pending) (hf : tr.unsubFail t = true) :
    ∃ u, (removeLoop tr pending subs).2.2 = some (PyErr.transportError u) ∧
      tr.unsubFail u = true := by
  induction pending generalizing subs with
  | nil => simp at ht
  | cons a as ih =>
    by_cases ha : tr.unsubFail a
    · exact ⟨a, by simp [removeLoop, ha], ha⟩
    · have hta : t ≠ a := fun hh => by rw [hh] at hf; exact absurd hf (by simp [ha])
      have hts : t ∈ as := by
        rcases List.mem_cons.mp ht with h | h
        · exact absurd h hta
        · exact h
      have := ih (subs.erase a) hts
      simpa [removeLoop, ha] using this

/-- The unsubscribe loop only performs unsubscribe calls and
informational logs. -/
theorem removeLoop_effects_shape (tr : Transport) (pending subs : List String) :
    ∀ e ∈ (removeLoop tr pending subs).2.1,
      (∃ q, e = Effect.unsubscribe q) ∨ ∃ s, e = Effect.logInfo s := by
  induction pending generalizing subs with
  | nil => simp [removeLoop]
  | cons t ts ih =>
    intro e he
    by_cases hf : tr.unsubFail t
    · simp [removeLoop, hf] at he
    · simp only [removeLoop, hf, if_neg (by simp [hf] : ¬ tr.unsubFail t = true)] at he
      simp at he
      rcases he with h | h | h
      · exact Or.inl ⟨t, h⟩
      · exact Or.inr ⟨_, h⟩
      · exact ih (subs.erase t) e h

/-- When every pending topic has a binding and a succeeding subscribe
call, the subscribe loop appends exactly the pending topics and
completes without an exception. -/
theorem addLoop_noFail (cfg : Config) (tr : Transport) (pending subs : List String)
    (hl : ∀ t ∈ pending, ∃ tc, List.lookup t cfg.topics = some tc)
    (hs : ∀ t ∈ pending, tr.subFail t = false) :
    (addLoop cfg tr pending subs).1 = subs ++ pending ∧
      (addLoop cfg tr pending subs).2.2 = none := by
  induction pending generalizing subs with
  | nil => simp [addLoop]
  | cons t ts ih =>
    obtain ⟨tc, htc⟩ := hl t (List.mem_cons_self t ts)
    have hst := hs t (List.mem_cons_self t ts)
    have := ih (subs ++ [t])
      (fun b hb => hl b (List.mem_cons_of_mem t hb))
      (fun b hb => hs b (List.mem_cons_of_mem t hb))
    simp [addLoop, htc, hst, this.1, this.2]

/-- When the subscribe loop completes without an exception, the
resulting set is the input set with the pending topics appended. -/
theorem addLoop_fst_of_none (cfg : Config) (tr : Transport) (pending subs : List String)
    (h : (addLoop cfg tr pending subs).2.2 = none) :
    (addLoop cfg tr pending subs).1 = subs ++ pending := by
  induction pending generalizing subs with
  | nil => simp [addLoop]
  | cons t ts ih =>
    rcases htc : List.lookup t cfg.topics with _ | tc
    · simp [addLoop, htc] at h
    · by_cases hst : tr.subFail t
      · simp [addLoop, htc, hst] at h
      · simp [addLoop, htc, hst] at h ⊢
        rw [ih (subs ++ [t]) h]
        simp

/-- Membership after erasing a list of topics from a duplicate-free
list: an element survives exactly when it was present and not erased. -/
theorem memFoldlErase (pending subs : List String) (a : String)
    (hnd : subs.Nodup) :
    a ∈ pending.foldl List.erase subs ↔ a ∈ subs ∧ a ∉ pending := by
  induction pending generalizing subs with
  | nil => simp
  | cons t ts ih =>
    have h1 := ih (subs.erase t) (hnd.erase t)
    simp only [List.foldl_cons] at *
    rw [h1, hnd.mem_erase_iff]
    constructor
    · rintro ⟨⟨hne, hmem⟩, hnot⟩
      exact ⟨hmem, by simp [hne, hnot]⟩
    · rintro ⟨hmem, hnot⟩
      simp at hnot
      exact ⟨⟨hnot.1, hmem⟩, hnot.2⟩

/-- When every transport call succeeds, reconciliation completes
without an exception. -/
theorem sync_err_none_of_noFail (cfg : Config) (tr : Transport) (subs : List String)
    (hu : ∀ t, tr.unsubFail t = false) (hs : ∀ t, tr.subFail t = false) :
    (syncSubscriptions cfg tr subs).2.2 = none := by
  have hr := removeLoop_err_none_of_noFail tr
    (subs.filter fun t => decide (t ∉ topicKeys cfg)) subs (fun t _ => hu t)
  rcases hrr : removeLoop tr (subs.filter fun t => decide (t ∉ topicKeys cfg)) subs
    with ⟨rs, reff, rerr⟩
  rw [hrr] at hr
  simp at hr
  subst hr
  have ha := addLoop_noFail cfg tr ((topicKeys cfg).filter fun t => decide (t ∉ rs)) rs
    (fun t htm => lookupOfMemKeys cfg.topics t
      (by simpa [topicKeys, List.mem_dedup] using (List.mem_filter.mp htm).1))
    (fun t _ => hs t)
  simp only [syncSubscriptions, hrr]
  simpa using ha.2

/-- When reconciliation completes without an exception on a
duplicate-free subscription set, the resulting set holds exactly the
configuration's topic keys. -/
theorem sync_mem_of_none (cfg : Config) (tr : Transport) (subs : List String)
    (hnd : subs.Nodup)
    (h : (syncSubscriptions cfg tr subs).2.2 = none) :
    ∀ a, a ∈ (syncSubscriptions cfg tr subs).1 ↔ a ∈ topicKeys cfg := by
  intro a
  rcases hrr : removeLoop tr (subs.filter fun t => decide (t ∉ topicKeys cfg)) subs
    with ⟨rs, reff, rerr⟩
  cases rerr with
  | some e =>
    simp only [syncSubscriptions, hrr] at h
    simp at h
  | none =>
    rcases haa : addLoop cfg tr ((topicKeys cfg).filter fun t => decide (t ∉ rs)) rs
      with ⟨as2, aeff, aerr⟩
    simp only [syncSubscriptions, hrr, haa] at h ⊢
    cases aerr with
    | some e => simp at h
    | none =>
      have hrs : rs = (subs.filter fun t => decide (t ∉ topicKeys cfg)).foldl List.erase subs := by
        have h0 : (removeLoop tr (subs.filter fun t => decide (t ∉ topicKeys cfg)) subs).2.2 = none := by
          rw [hrr]
        have := removeLoop_fst_of_none tr _ subs h0
        rw [hrr] at this
        exact this
      have has2 : as2 = rs ++ ((topicKeys cfg).filter fun t => decide (t ∉ rs)) := by
        have h0 : (addLoop cfg tr ((topicKeys cfg).filter fun t => decide (t ∉ rs)) rs).2.2 = none := by
          rw [haa]
        have := addLoop_fst_of_none cfg tr _ rs h0
        rw [haa] at this
        exact this
      have hrsmem : a ∈ rs ↔ a ∈ subs ∧ a ∈ topicKeys cfg := by
        rw [hrs, memFoldlErase _ _ _ hnd]
        simp [List.mem_filter]
        tauto
      rw [has2]
      simp only [List.mem_append, List.mem_filter, decide_eq_true_eq]
      rw [hrsmem]
      by_cases h1 : a ∈ subs <;> by_cases h2 : a ∈ topicKeys cfg <;> simp [h1, h2, hrsmem]

/-- Claim C5: starting from any subscription set and configuration,
when every transport call succeeds, `_sync_subscriptions` returns
without an exception and leaves the subscription set holding exactly
the key set of the configuration's topics mapping — no topic outside
that set remains. -/
theorem sync_subscriptions_exact (cfg : Config) (tr : Transport) (subs : List String)
    (hnd : subs.Nodup)
    (hu : ∀ t, tr.unsubFail t = false) (hs : ∀ t, tr.subFail t = false) :
    (syncSubscriptions cfg tr subs).2.2 = none ∧
      ∀ t, t ∈ (syncSubscriptions cfg tr subs).1 ↔ t ∈ topicKeys cfg := by
  have hn := sync_err_none_of_noFail cfg tr subs hu hs
  exact ⟨hn, sync_mem_of_none cfg tr subs hnd hn⟩

/-- Witness for claim C5 at a concrete input: a set subscribed to `a`
reconciled against a configuration whose only topic is `b`. -/
theorem sync_subscriptions_exact_witness :
    (syncSubscriptions cfgOnlyB trNoFail ["a"]).2.2 = none ∧
      ∀ t, t ∈ (syncSubscriptions cfgOnlyB trNoFail ["a"]).1 ↔ t ∈ topicKeys cfgOnlyB :=
  sync_subscriptions_exact cfgOnlyB trNoFail ["a"] (by simp)
    (fun _ => rfl) (fun _ => rfl)

/-- Claim C9 (amended context: none — the claim holds): reconciliation
is idempotent: a second `_sync_subscriptions` with the unchanged
desired set, starting from the subscription set the first successful
call produced, performs no transport operation, emits no effect at
all, and leaves the subscription set unchanged. -/
theorem sync_subscriptions_idempotent (cfg : Config) (tr : Transport)
    (subs s1 : List String) (e1 : List Effect)
    (hnd : subs.Nodup)
    (h1 : syncSubscriptions cfg tr subs = (s1, e1, none)) :
    syncSubscriptions cfg tr s1 = (s1, [], none) := by
  have hnone : (syncSubscriptions cfg tr subs).2.2 = none := by rw [h1]
  have hmem0 := sync_mem_of_none cfg tr subs hnd hnone
  rw [h1] at hmem0
  have hmem : ∀ a, a ∈ s1 ↔ a ∈ topicKeys cfg := by simpa using hmem0
  have h2 : s1.filter (fun t => decide (t ∉ topicKeys cfg)) = [] :=
    filterNilOf _ _ (fun b hb => by simp [(hmem b).mp hb])
  have h3 : (topicKeys cfg).filter (fun t => decide (t ∉ s1)) = [] :=
    filterNilOf _ _ (fun b hb => by simp [(hmem b).mpr hb])
  simp only [syncSubscriptions, h2]
  simp only [removeLoop]
  simp only [h3]
  simp [addLoop]

/-- Witness for claim C9 at a concrete input: a first reconciliation
replaces subscription `old` by `new`; the second is a no-op. -/
theorem sync_subscriptions_idempotent_witness :
    syncSubscriptions cfgNew trNoFail ["new"] = (["new"], [], none) :=
  sync_subscriptions_idempotent cfgNew trNoFail ["old"] ["new"]
    [Effect.unsubscribe "old", Effect.logInfo ("unsubscribed " ++ "old"),
     Effect.subscribe "new" (CfgVal.nat 1), Effect.logInfo ("subscribed " ++ "new")]
    (by simp) (by rfl)

/-- Counterexample to claim C4: subscribed to `a`, desired set `b`,
with only `a`'s unsubscribe raising.  Reconciliation aborts on `a`'s
failure: `b` — whose own transport calls would succeed — is never
subscribed, no effect at all is emitted, and the exception escapes.
The claim demanded that every other topic of the diff still be
processed. -/
theorem sync_unsub_failure_not_isolated :
    syncSubscriptions cfgOnlyB trUnsubFailA ["a"]
        = (["a"], [], some (PyErr.transportError "a")) ∧
      "b" ∉ (syncSubscriptions cfgOnlyB trUnsubFailA ["a"]).1 :=
  ⟨by rfl, by decide⟩

/-- Claim C4 as amended: a raising transport call is not isolated
per-topic — when any topic of the removal diff has a failing
unsubscribe, `_sync_subscriptions` aborts with that transport error
and the subscribe pass never runs: no subscribe call is issued for any
topic of the addition diff. -/
theorem sync_transport_failure_aborts (cfg : Config) (tr : Transport)
    (subs : List String) (t : String)
    (ht : t ∈ subs) (hnc : t ∉ topicKeys cfg) (hf : tr.unsubFail t = true) :
    (∃ u, (syncSubscriptions cfg tr subs).2.2 = some (PyErr.transportError u) ∧
        tr.unsubFail u = true) ∧
      ∀ e ∈ (syncSubscriptions cfg tr subs).2.1, ∀ q v, e ≠ Effect.subscribe q v := by
  have htR : t ∈ subs.filter (fun x => decide (x ∉ topicKeys cfg)) := by
    simp [List.mem_filter, ht, hnc]
  obtain ⟨u, hu, hu2⟩ := removeLoop_err_of_fail tr
    (subs.filter fun x => decide (x ∉ topicKeys cfg)) subs t htR hf
  rcases hrr : removeLoop tr (subs.filter fun x => decide (x ∉ topicKeys cfg)) subs
    with ⟨rs, reff, rerr⟩
  rw [hrr] at hu
  simp at hu
  subst hu
  have hshape := removeLoop_effects_shape tr
    (subs.filter fun x => decide (x ∉ topicKeys cfg)) subs
  rw [hrr] at hshape
  constructor
  · exact ⟨u, by simp only [syncSubscriptions, hrr], hu2⟩
  · intro e he q v
    simp only [syncSubscriptions, hrr] at he
    rcases hshape e (by simpa using he) with ⟨q2, rfl⟩ | ⟨s2, rfl⟩ <;> simp

/-- Witness for the amended claim C4 at a concrete input. -/
theorem sync_transport_failure_aborts_witness :
    (∃ u, (syncSubscriptions cfgOnlyB trUnsubFailA ["a"]).2.2
        = some (PyErr.transportError u) ∧ trUnsubFailA.unsubFail u = true) ∧
      ∀ e ∈ (syncSubscriptions cfgOnlyB trUnsubFailA ["a"]).2.1,
        ∀ q v, e ≠ Effect.subscribe q v :=
  sync_transport_failure_aborts cfgOnlyB trUnsubFailA ["a"] "a"
    (by decide) (by decide) (by decide)

/-- Counterexample to claim C2: with the config file's modification
time grown to 10 and its content now malformed, the reload iteration
logs the reload banner and then lets the JSON decode error escape —
the loop neither logs the failure nor continues; the uncaught
exception terminates `run`. -/
theorem run_step_malformed_config_crashes :
    runStep trNoFail (ConfigFile.present 10 (LoadResult.malformed "bad json")) stExample
      = (stExample, [Effect.logInfo "config file changed, reloading"],
         some (PyErr.jsonError "bad json")) := by rfl

/-- Claim C2 as amended: on a failed configuration load (missing file
or malformed content at a newer modification time), the in-memory
snapshot — indeed the whole run state — is left unchanged, but the
exception escapes the iteration instead of being logged and survived:
`run` has no handler, so the loop terminates. -/
theorem run_step_failed_load_keeps_snapshot_and_raises (tr : Transport)
    (st : RunState) (cf : ConfigFile)
    (h : cf = ConfigFile.missing ∨
      ∃ mt msg, cf = ConfigFile.present mt (LoadResult.malformed msg) ∧
        st.lastMtime < mt) :
    (runStep tr cf st).1 = st ∧ ∃ e, (runStep tr cf st).2.2 = some e := by
  rcases h with h | ⟨mt, msg, h, hlt⟩
  · subst h
    exact ⟨rfl, ⟨PyErr.fileNotFound st.configPath, rfl⟩⟩
  · subst h
    constructor
    · simp [runStep, hlt]
    · exact ⟨PyErr.jsonError msg, by simp [runStep, hlt]⟩

/-- Witness for the amended claim C2 at a concrete input. -/
theorem run_step_failed_load_witness :
    (runStep trNoFail ConfigFile.missing stExample).1 = stExample ∧
      ∃ e, (runStep trNoFail ConfigFile.missing stExample).2.2 = some e :=
  run_step_failed_load_keeps_snapshot_and_raises trNoFail stExample
    ConfigFile.missing (Or.inl rfl)

/-- Claim C1, evaluated at the failing input: a message on configured
topic `t` whose handler file `h.py` is missing on disk.  The
`os.path.getmtime` call in `_load_callback` sits outside the `try`,
so `FileNotFoundError` escapes `_on_message` — the invocation neither
returns normally nor ends in a log line, contradicting the claimed
dispatcher boundary. -/
theorem on_message_missing_handler_file_raises :
    onMessage fsEmpty cfgT [] msgT = ([], [], some (PyErr.fileNotFound "h.py")) := by
  rfl

/-- Claim C3, evaluated at the failing input: resolving the missing
path `h.py` raises `FileNotFoundError` out of `_load_callback` instead
of failing in a controlled way; `_on_message` has no handler for it,
so the caller never falls back to the default handler. -/
theorem load_callback_missing_file_raises :
    loadCallback fsEmpty [] "h.py" = Except.error (PyErr.fileNotFound "h.py") := by
  rfl

/-- Claim C6: with a cache entry for the path whose recorded
modification time equals the file's current on-disk modification
time, resolving the path twice returns the identical cached callable
both times, leaves the cache untouched, and performs no effect at all
— in particular no module load and no validation work on either
call. -/
theorem resolve_cached_twice_identical (fs : FS) (cache : Cache) (path : String)
    (f : Callable) (fi : FileInfo)
    (hfs : fs path = some fi)
    (hc : List.lookup path cache = some ⟨f, fi.mtime⟩) :
    resolveTwice fs cache path = Except.ok (f, f, cache, []) := by
  have h1 : loadCallback fs cache path = Except.ok (f, cache, []) := by
    simp [loadCallback, hfs, hc]
  simp [resolveTwice, h1]

/-- Witness for claim C6 at a concrete input: `h.py` cached at its
current modification time 7. -/
theorem resolve_cached_twice_identical_witness :
    resolveTwice fsH cacheH "h.py"
      = Except.ok (Callable.userCallback fdGood, Callable.userCallback fdGood,
          cacheH, []) :=
  resolve_cached_twice_identical fsH cacheH "h.py"
    (Callable.userCallback fdGood) fiGood (by rfl) (by rfl)

/-- Claim C7: when the handler file executes but its module fails
shape validation (and the cache holds no fresh entry for the path, so
the reload branch runs), `_load_callback` returns the process-wide
default callback, logs warnings — the validator's specific mismatch
first — and leaves the cache exactly as it was: in particular no
entry is created for a path never successfully loaded. -/
theorem resolve_validation_failure_default_no_cache (fs : FS) (cache : Cache)
    (path : String) (fi : FileInfo) (m : PyModule)
    (hfs : fs path = some fi)
    (hexec : fi.exec = ExecOutcome.loads m)
    (hval : (validateCallbackSignature m).fst = false)
    (hstale : ∀ e, List.lookup path cache = some e → fi.mtime ≠ e.mtime) :
    loadCallback fs cache path =
      Except.ok (Callable.defaultCallback, cache,
        [Effect.loadModule path] ++ (validateCallbackSignature m).snd ++
        [Effect.logWarn ("callback signature invalid " ++ path),
         Effect.logWarn ("using default callback instead of " ++ path)]) := by
  have hLF : loadFresh cache path fi =
      Except.ok (Callable.defaultCallback, cache,
        [Effect.loadModule path] ++ (validateCallbackSignature m).snd ++
        [Effect.logWarn ("callback signature invalid " ++ path),
         Effect.logWarn ("using default callback instead of " ++ path)]) := by
    simp [loadFresh, hexec, hval]
  unfold loadCallback
  rw [hfs]
  rcases hc : List.lookup path cache with _ | entry
  · simpa using hLF
  · have hne : fi.mtime ≠ entry.mtime := hstale entry hc
    simp [hne, hLF]

/-- Witness for claim C7 at a concrete input: `bad.py` loads a module
with no `callback` attribute, against an empty cache. -/
theorem resolve_validation_failure_default_no_cache_witness :
    loadCallback fsBad [] "bad.py" =
      Except.ok (Callable.defaultCallback, [],
        [Effect.loadModule "bad.py"] ++ (validateCallbackSignature mNoCb).snd ++
        [Effect.logWarn ("callback signature invalid " ++ "bad.py"),
         Effect.logWarn ("using default callback instead of " ++ "bad.py")]) :=
  resolve_validation_failure_default_no_cache fsBad [] "bad.py" fiBad mNoCb
    (by rfl) (by rfl) (by rfl) (fun e h => by simp [List.lookup] at h)

/-- Claim C10: a topic present in the topics mapping but bound to a
falsy value (the empty object) is treated by `_on_message` exactly
like an unconfigured topic — the `if not topic_config` test checks
truthiness, not key presence — so the dispatcher logs and returns
without resolving or invoking any handler, with the cache untouched
and no exception. -/
theorem on_message_falsy_topic_config (fs : FS) (cfg cfg2 : Config)
    (cache : Cache) (m : Msg)
    (h : List.lookup m.topic cfg.topics = some [])
    (h2 : List.lookup m.topic cfg2.topics = none) :
    onMessage fs cfg cache m
        = (cache, [Effect.logWarn ("no callback configured for " ++ m.topic)], none) ∧
      onMessage fs cfg cache m = onMessage fs cfg2 cache m := by
  constructor
  · simp [onMessage, h]
  · simp [onMessage, h, h2]

/-- Witness for claim C10 at a concrete input: topic `t` bound to the
empty object versus absent entirely. -/
theorem on_message_falsy_topic_config_witness :
    onMessage fsEmpty cfgFalsy [] msgT
        = ([], [Effect.logWarn ("no callback configured for " ++ msgT.topic)], none) ∧
      onMessage fsEmpty cfgFalsy [] msgT = onMessage fsEmpty cfgNone [] msgT :=
  on_message_falsy_topic_config fsEmpty cfgFalsy cfgNone [] msgT (by rfl) (by rfl)

/-- An annotation's origin is the class `Ok` exactly for `Ok[...]`
aliases. -/
theorem getOrigin_eq_okO_iff (t : PyType) :
    getOrigin t = TyOrigin.okO ↔ ∃ u, t = PyType.okApp u := by
  cases t <;> simp [getOrigin]

/-- An annotation's origin is the class `Err` exactly for `Err[...]`
aliases. -/
theorem getOrigin_eq_errO_iff (t : PyType) :
    getOrigin t = TyOrigin.errO ↔ ∃ u, t = PyType.errApp u := by
  cases t <;> simp [getOrigin]

/-- The origin of a union annotation is `typing.Union`. -/
theorem getOrigin_unionOf (l : List PyType) :
    getOrigin (PyType.unionOf l) = TyOrigin.unionO := rfl

/-- The arguments of a union annotation are its variants. -/
theorem getArgs_unionOf (l : List PyType) :
    getArgs (PyType.unionOf l) = l := rfl

/-- Claim C8: the validator accepts a module exactly when it has the
shape the spec demands — an entry point named `callback` that is a
function with parameters `client, userdata, msg` in order, none with
defaults, declared to return the union `Ok[bool] | Err[str]` — and
every rejection logs at least one specific-mismatch warning. -/
theorem validate_signature_iff_shape (m : PyModule) :
    ((validateCallbackSignature m).fst = true ↔ AcceptShape m) ∧
      ((validateCallbackSignature m).fst = false →
        (validateCallbackSignature m).snd ≠ []) := by
  obtain ⟨cb⟩ := m
  cases cb with
  | none => simp [validateCallbackSignature, AcceptShape]
  | some a =>
    cases a with
    | notFunction b => simp [validateCallbackSignature, AcceptShape]
    | function f =>
      by_cases hp : f.params.map Param.name = expectedParams
      · rcases hd : f.params.find? (fun p => p.hasDefault) with _ | p
        · have hnd : ∀ p ∈ f.params, p.hasDefault = false := by
            intro p hp2
            have := List.find?_eq_none.mp hd p hp2
            simpa using this
          rcases hret : f.ret with _ | _ | nm | targ | targ | ⟨nm, args⟩ | args
          · simp [validateCallbackSignature, AcceptShape, hp, hd, hret, getOrigin]
          · simp [validateCallbackSignature, AcceptShape, hp, hd, hret, getOrigin]
          · simp [validateCallbackSignature, AcceptShape, hp, hd, hret, getOrigin]
          · simp [validateCallbackSignature, AcceptShape, hp, hd, hret, getOrigin]
          · simp [validateCallbackSignature, AcceptShape, hp, hd, hret, getOrigin]
          · simp [validateCallbackSignature, AcceptShape, hp, hd, hret, getOrigin]
          · rcases args with _ | ⟨s, _ | ⟨e, _ | ⟨x, xs⟩⟩⟩
            · simp [validateCallbackSignature, AcceptShape, hp, hd, hret,
                getOrigin, getArgs]
            · simp [validateCallbackSignature, AcceptShape, hp, hd, hret,
                getOrigin, getArgs]
            · by_cases hs : getOrigin s = TyOrigin.okO
              · by_cases he : getOrigin e = TyOrigin.errO
                · obtain ⟨ts, rfl⟩ := (getOrigin_eq_okO_iff s).mp hs
                  obtain ⟨te, rfl⟩ := (getOrigin_eq_errO_iff e).mp he
                  by_cases hb : ts = PyType.boolTy
                  · by_cases hstr : te = PyType.strTy
                    · subst hb
                      subst hstr
                      simp [validateCallbackSignature, AcceptShape, hp, hd, hret,
                        getOrigin, getArgs, firstArg, isBoolTy, isStrTy, hnd]
                      exact hnd
                    · have hse : isStrTy te = false := by
                        cases te <;> simp_all [isStrTy]
                      simp [validateCallbackSignature, AcceptShape, hp, hd, hret,
                        getOrigin, getArgs, firstArg, hse, hstr]
                  · have hbe : isBoolTy ts = false := by
                      cases ts <;> simp_all [isBoolTy]
                    simp [validateCallbackSignature, AcceptShape, hp, hd, hret,
                      getOrigin, getArgs, firstArg, hbe, hb]
                · have hee : ∀ u, e ≠ PyType.errApp u := by
                    intro u hu
                    exact he ((getOrigin_eq_errO_iff e).mpr ⟨u, hu⟩)
                  simp [validateCallbackSignature, AcceptShape, hp, hd, hret,
                    getOrigin_unionOf, getArgs_unionOf, hs, he, hee]
              · have hse : ∀ u, s ≠ PyType.okApp u := by
                  intro u hu
                  exact hs ((getOrigin_eq_okO_iff s).mpr ⟨u, hu⟩)
                simp [validateCallbackSignature, AcceptShape, hp, hd, hret,
                  getOrigin_unionOf, getArgs_unionOf, hs, hse]
            · simp [validateCallbackSignature, AcceptShape, hp, hd, hret,
                getOrigin, getArgs]
        · have hpd : p.hasDefault = true := by
            have := List.find?_some hd
            simpa using this
          have hpm : p ∈ f.params := List.mem_of_find?_eq_some hd
          constructor
          · constructor
            · intro hTrue
              exfalso
              simp [validateCallbackSignature, hp, hd] at hTrue
            · rintro ⟨f2, hf2, _, hall, _⟩
              exfalso
              have : f2 = f := by
                simpa using hf2.symm
              subst this
              have := hall p hpm
              rw [hpd] at this
              exact Bool.true_eq_false.mp this
          · intro _
            simp [validateCallbackSignature, hp, hd]
      · constructor
        · constructor
          · intro hTrue
            exfalso
            simp [validateCallbackSignature, hp] at hTrue
          · rintro ⟨f2, hf2, hnames, _, _⟩
            exfalso
            have : f2 = f := by
              simpa using hf2.symm
            subst this
            exact hp hnames
        · intro _
          simp [validateCallbackSignature, hp]

/-- Witness for claim C8 at a concrete input: the well-shaped module
`mGood`. -/
theorem validate_signature_iff_shape_witness :
    ((validateCallbackSignature mGood).fst = true ↔ AcceptShape mGood) ∧
      ((validateCallbackSignature mGood).fst = false →
        (validateCallbackSignature mGood).snd ≠ []) :=
  validate_signature_iff_shape mGood
